import Mathlib

/-!
Verification of the agent-orchestration substrate of the travel-agent
repository against its behavioural specification.

The development shallowly embeds four components:

* the in-memory agent-to-agent protocol (broker) of
  `moto_travel/app/agents/base/a2a_protocol.py` together with the message
  model of `moto_travel/app/agents/base/message.py`;
* the agent base class `moto_travel/app/agents/base/agent.py`
  (method `execute`);
* the keyword phase of the router `moto_travel/app/agents/router.py`;
* the sequential planning workflow
  `backend/agents/langgraph_workflow.py`.

Modelling conventions.  Python dicts become association lists with
insert-or-replace semantics (a set on a present key updates it in place, a
new key is appended, matching dict insertion order).  The uuid request
identifiers become naturals drawn from a counter held in the protocol
state (only freshness is relied upon).  Durations and clock readings are
naturals.  An async handler is a function from the incoming message to an
outcome: it completes with a response, raises with a message, or never
returns (`diverge`).  A call that can block forever is given an explicit
`hang` result constructor, so that "never hangs" and "waits out the full
timeout" become statements about which constructor is produced.  Payload
values are modelled as strings; `timestamp`, `metadata` and the advisory
`priority` field carry no behaviour in the embedded code paths and only
`priority` is kept, as an inert field.
-/

namespace TravelAgent

/-- Association-list read, mirroring a Python dict read: the first binding
of the key wins (under the insert-or-replace write below, keys are unique). -/
def assocFind {κ α : Type} [DecidableEq κ] : List (κ × α) → κ → Option α
  | [], _ => none
  | (k, v) :: t, k0 => if k = k0 then some v else assocFind t k0

/-- Association-list write, mirroring a Python dict write `d[k] = v`:
replaces the binding in place when the key is present, appends otherwise. -/
def assocSet {κ α : Type} [DecidableEq κ] : List (κ × α) → κ → α → List (κ × α)
  | [], k0, v0 => [(k0, v0)]
  | (k, v) :: t, k0, v0 =>
    if k = k0 then (k, v0) :: t else (k, v) :: assocSet t k0 v0

/-- Association-list removal, mirroring Python `d.pop(k, None)`. -/
def assocErase {κ α : Type} [DecidableEq κ] : List (κ × α) → κ → List (κ × α)
  | [], _ => []
  | (k, v) :: t, k0 => if k = k0 then t else (k, v) :: assocErase t k0

/-! ## Message model (`message.py`) -/

/-- `MessagePriority` of `message.py`; advisory only, never inspected by the
broker. -/
inductive MessagePriority
  | high
  | normal
  | low
deriving DecidableEq, Repr

/-- `RequestMessage` of `message.py`.  `request_id` is the correlation key
(a uuid in the source, a counter-generated natural here); `timeout` is the
optional duration after which the request is abandoned. -/
structure RequestMessage where
  from_agent : String
  to_agent : String
  action : String
  payload : List (String × String)
  request_id : Nat
  timeout : Option Nat
  priority : MessagePriority
deriving DecidableEq, Repr

/-- `ResponseMessage` of `message.py`. -/
structure ResponseMessage where
  from_agent : String
  to_agent : String
  action : String
  payload : List (String × String)
  success : Bool
  error : Option String
  original_request_id : Option Nat
deriving DecidableEq, Repr

/-- `NotificationMessage` of `message.py`: fire-and-forget, no correlation
back-reference. -/
structure NotificationMessage where
  from_agent : String
  to_agent : String
  action : String
  payload : List (String × String)
  priority : MessagePriority
deriving DecidableEq, Repr

/-- The three concrete message variants, tagged the way
`message.message_type` tags them. -/
inductive AgentMsg
  | req (r : RequestMessage)
  | resp (r : ResponseMessage)
  | notif (n : NotificationMessage)

/-- Destination accessor shared by the three variants. -/
def AgentMsg.to_agent : AgentMsg → String
  | .req r => r.to_agent
  | .resp r => r.to_agent
  | .notif n => n.to_agent

/-- Outcome of awaiting an async handler: it completes with a response,
raises an exception carrying a message, or never returns. -/
inductive HandlerOutcome
  | ok (r : ResponseMessage)
  | exn (msg : String)
  | diverge

/-- An async handler, as stored in the broker's handler table. -/
def Handler := AgentMsg → HandlerOutcome

/-- State of an `asyncio.Future` held in a pending-request slot. -/
inductive FutureState
  | notDone
  | done (r : ResponseMessage)
deriving DecidableEq, Repr

/-! ## Broker state (`InMemoryA2AProtocol.__init__`) -/

/-- The mutable fields of `InMemoryA2AProtocol`: the agent registry
(instances are opaque, modelled as naturals), the nested
agent-name-to-action-to-handler table, and the pending-request map from
`request_id` to its future.  `nextId` generates fresh request identifiers
(uuids in the source). -/
structure ProtocolState where
  agents : List (String × Nat)
  handlers : List (String × List (String × Handler))
  pending : List (Nat × FutureState)
  nextId : Nat

/-- `InMemoryA2AProtocol.register_agent`: inserts or replaces the registry
entry and unconditionally resets the agent's handler table to empty. -/
def registerAgent (S : ProtocolState) (agent_name : String) (inst : Nat) :
    ProtocolState :=
  { S with
    agents := assocSet S.agents agent_name inst
    handlers := assocSet S.handlers agent_name [] }

/-- `InMemoryA2AProtocol.register_handler`. -/
def registerHandler (S : ProtocolState) (agent_name action : String)
    (handler : Handler) : ProtocolState :=
  { S with
    handlers := assocSet S.handlers agent_name
      (assocSet ((assocFind S.handlers agent_name).getD []) action handler) }

/-- The lookup `self.handlers.get(agent_name, {}).get(action)`. -/
def lookupHandler (S : ProtocolState) (agent_name action : String) :
    Option Handler :=
  assocFind ((assocFind S.handlers agent_name).getD []) action

/-- The synthetic failure response `_handle_request` builds when no handler
is registered for the action. -/
def noHandlerResponse (request : RequestMessage) : ResponseMessage :=
  { from_agent := request.to_agent
    to_agent := request.from_agent
    action := request.action
    payload := []
    success := false
    error := some ("No handler found for action: " ++ request.action)
    original_request_id := some request.request_id }

/-- The synthetic failure response `_handle_request` builds when the
handler raises. -/
def handlerErrorResponse (request : RequestMessage) (e : String) :
    ResponseMessage :=
  { from_agent := request.to_agent
    to_agent := request.from_agent
    action := request.action
    payload := []
    success := false
    error := some e
    original_request_id := some request.request_id }

/-- `InMemoryA2AProtocol._handle_request`: dispatches to the handler for
`(to_agent, action)`; a missing handler and a raising handler both become
synthetic failure responses, a completing handler has
`original_request_id` stamped onto its response.  `none` means the handler
never returned, so the (inline) dispatch never returns either. -/
def handleRequest (S : ProtocolState) (request : RequestMessage) :
    Option ResponseMessage :=
  match lookupHandler S request.to_agent request.action with
  | none => some (noHandlerResponse request)
  | some handler =>
    match handler (.req request) with
    | .ok response => some { response with original_request_id := some request.request_id }
    | .exn e => some (handlerErrorResponse request e)
    | .diverge => none

/-- `InMemoryA2AProtocol._handle_response`: pops the pending slot keyed by
`original_request_id`, if any, resolving its future; an unmatched response
is dropped.  (Resolving the popped future hands the response to the
awaiter; the map itself only loses the slot.) -/
def handleResponse (S : ProtocolState) (response : ResponseMessage) :
    ProtocolState :=
  match response.original_request_id with
  | none => S
  | some rid =>
    match assocFind S.pending rid with
    | none => S
    | some _ => { S with pending := assocErase S.pending rid }

/-- `InMemoryA2AProtocol._handle_notification`: invokes the handler, if
any, discarding its result; exceptions inside it are swallowed.  `none`
means the notification handler never returned. -/
def handleNotification (S : ProtocolState) (n : NotificationMessage) :
    Option Unit :=
  match lookupHandler S n.to_agent n.action with
  | none => some ()
  | some handler =>
    match handler (.notif n) with
    | .diverge => none
    | _ => some ()

/-- Result of `send_message`: either the call returns (with an optional
response and the possibly updated protocol state), or it never returns
because the invoked handler never does. -/
inductive MsgResult
  | ret (out : Option ResponseMessage) (S2 : ProtocolState)
  | hang

/-- `InMemoryA2AProtocol.send_message`: a message to an unregistered agent
returns `None`; a request is dispatched inline via `_handle_request`; a
notification is handled with no reply; a response resolves a pending
slot. -/
def sendMessage (S : ProtocolState) (message : AgentMsg) : MsgResult :=
  if (assocFind S.agents message.to_agent).isNone then .ret none S
  else
    match message with
    | .req r =>
      match handleRequest S r with
      | some response => .ret (some response) S
      | none => .hang
    | .notif n =>
      match handleNotification S n with
      | some _ => .ret none S
      | none => .hang
    | .resp r => .ret none (handleResponse S r)

/-- Result of `send_request`: the call returned a response directly
(without awaiting the future), or it awaited the future for the full
timeout and returned the synthetic timeout response, or it never
returns. -/
inductive SendReqResult
  | immediate (r : ResponseMessage) (S2 : ProtocolState)
  | afterTimeout (r : ResponseMessage) (S2 : ProtocolState)
  | hang

/-- The response carried by a `send_request` result, when the call
returns. -/
def SendReqResult.response? : SendReqResult → Option ResponseMessage
  | .immediate r _ => some r
  | .afterTimeout r _ => some r
  | .hang => none

/-- The pending-request map after a `send_request` call, when the call
returns. -/
def SendReqResult.pendingAfter : SendReqResult → Option (List (Nat × FutureState))
  | .immediate _ S2 => some S2.pending
  | .afterTimeout _ S2 => some S2.pending
  | .hang => none

/-- Whether the call waited out the full timeout before returning. -/
def SendReqResult.waitedFullTimeout : SendReqResult → Bool
  | .afterTimeout _ _ => true
  | _ => false

/-- The synthetic failure response `send_request` builds when the wait on
the future times out. -/
def timeoutResponse (request : RequestMessage) : ResponseMessage :=
  { from_agent := request.to_agent
    to_agent := request.from_agent
    action := request.action
    payload := []
    success := false
    error := some "Request timeout"
    original_request_id := some request.request_id }

/-- Python truthiness of the `timeout` argument as tested by
`if timeout:`: both `None` and `0` are falsy. -/
def truthy : Option Nat → Bool
  | none => false
  | some t => t != 0

/-- The request `send_request` constructs; its `request_id` is freshly
generated (a uuid in the source, the state counter here). -/
def mkRequest (S : ProtocolState) (from_agent to_agent action : String)
    (payload : List (String × String)) (timeout : Option Nat)
    (priority : MessagePriority) : RequestMessage :=
  { from_agent := from_agent
    to_agent := to_agent
    action := action
    payload := payload
    request_id := S.nextId
    timeout := timeout
    priority := priority }

/-- `InMemoryA2AProtocol.send_request`: constructs the request, creates a
pending slot for it, dispatches through `send_message`, and
- returns a synchronously delivered response at once, resolving the local
  future (the pending slot is not removed on this path);
- otherwise awaits the future: with a truthy timeout the wait can only end
  in `TimeoutError` (nothing else in this call resolves the future), upon
  which the slot is popped and the synthetic timeout response returned;
  with a falsy timeout (`None` or `0`) the bare `await future` never
  completes;
- never returns at all when the inline dispatch itself never returns. -/
def sendRequest (S : ProtocolState) (from_agent to_agent action : String)
    (payload : List (String × String)) (timeout : Option Nat)
    (priority : MessagePriority) : SendReqResult :=
  match sendMessage
      { S with
        nextId := S.nextId + 1
        pending := assocSet S.pending S.nextId .notDone }
      (.req (mkRequest S from_agent to_agent action payload timeout priority)) with
  | .hang => .hang
  | .ret (some response) S2 =>
    .immediate response
      { S2 with
        pending :=
          match assocFind S2.pending S.nextId with
          | some .notDone => assocSet S2.pending S.nextId (.done response)
          | _ => S2.pending }
  | .ret none S2 =>
    if truthy timeout then
      .afterTimeout
        (timeoutResponse (mkRequest S from_agent to_agent action payload timeout priority))
        { S2 with pending := assocErase S2.pending S.nextId }
    else .hang

/-! ## Agent base (`agent.py`, method `BaseAgent.execute`) -/

/-- `AgentStatus` of `agent.py`. -/
inductive AgentStatus
  | idle
  | processing
  | completed
  | error
deriving DecidableEq, Repr

/-- The `AgentResponse` dataclass of `agent.py` (`data` is `Any` in the
source, a string here; the `timestamp` and `metadata` fields carry no
behaviour and are dropped). -/
structure AgentResponse where
  success : Bool
  data : Option String
  message : String
  agent_name : String
  execution_time : Nat
deriving DecidableEq, Repr

/-- The per-agent mutable attributes touched by `execute`: `self.status`,
`self._execution_count` and `self._total_execution_time`. -/
structure AgentState where
  status : AgentStatus
  execution_count : Nat
  total_execution_time : Nat
deriving DecidableEq, Repr

/-- Outcome of awaiting the agent task logic `_execute_async`. -/
inductive ExecOutcome
  | ok (r : AgentResponse)
  | exn (msg : String)
deriving DecidableEq, Repr

/-- `BaseAgent.execute` of `agent.py`: sets status to `processing`, awaits
the task logic (`task`, taking `elapsed` time units); on success sets
status `completed`, increments `_execution_count`, adds the elapsed time to
`_total_execution_time` and returns the task result; on exception sets
status `error` and returns a synthetic failure `AgentResponse` carrying the
exception message and the elapsed time — the counters are not touched on
this path, and nothing is re-raised.
(`BaseAgent._execute_with_timing` of the older `base_agent.py` has the
same success/exception structure.) -/
def agentExecute (name : String) (st : AgentState) (task : ExecOutcome)
    (elapsed : Nat) : AgentResponse × AgentState :=
  match task with
  | .ok r =>
    (r,
     { status := .completed
       execution_count := st.execution_count + 1
       total_execution_time := st.total_execution_time + elapsed })
  | .exn e =>
    ({ success := false
       data := none
       message := "执行失败: " ++ e
       agent_name := name
       execution_time := elapsed },
     { st with status := .error })

/-! ## Router keyword phase (`router.py`) -/

/-- `AgentType` of `base_agent.py`. -/
inductive AgentType
  | route
  | weather
  | poi
  | search
  | attraction
  | budget
  | personalization
deriving DecidableEq, Repr

/-- Does `hay` start with `needle` (character comparison)? -/
def charsStart : List Char → List Char → Bool
  | [], _ => true
  | _ :: _, [] => false
  | c :: n, d :: h => c = d && charsStart n h

/-- Does `needle` occur inside `hay`?  (The empty needle occurs
everywhere, as with Python `in`.) -/
def charsContain (needle : List Char) : List Char → Bool
  | [] => needle.isEmpty
  | d :: h => charsStart needle (d :: h) || charsContain needle h

/-- Python `needle in hay` on strings. -/
def strContains (hay needle : String) : Bool :=
  charsContain needle.data hay.data

/-- The `self.intent_keywords` table of `AgentRouter.__init__`, verbatim
(including the duplicated entries, each of which scores separately). -/
def intentKeywords : List (AgentType × List String) :=
  [ (.route,
     ["路线", "导航", "路径", "怎么走", "从", "到", "途经", "规划路线",
      "路线规划", "导航", "路径规划", "摩旅路线"]),
    (.weather,
     ["天气", "温度", "下雨", "下雪", "风力", "预报", "气象", "气候",
      "晴天", "阴天", "暴雨", "大风", "能见度"]),
    (.poi,
     ["餐厅", "酒店", "住宿", "加油站", "修车", "医院", "药店", "银行",
      "ATM", "美食", "吃饭", "住宿", "加油", "维修", "医疗"]),
    (.search,
     ["政策", "限行", "禁行", "规定", "法规", "路况", "施工", "封路",
      "野生动物", "安全", "装备", "推荐"]),
    (.attraction,
     ["景点", "景区", "旅游", "风景", "名胜", "古迹", "公园", "博物馆",
      "推荐", "好玩", "值得去", "打卡"]),
    (.budget,
     ["预算", "费用", "花费", "成本", "多少钱", "价格", "收费", "开销",
      "经济", "省钱", "花费", "预算规划"]),
    (.personalization,
     ["偏好", "喜欢", "习惯", "个性化", "定制", "个人", "我的", "偏好设置"]) ]

/-- Python `max(scores, key=scores.get)` over an insertion-ordered dict:
scans in order, keeping the current best unless a strictly greater score
appears, so the first agent with the maximal score wins ties. -/
def pickMaxGo : AgentType → Nat → List (AgentType × Nat) → AgentType
  | best, _, [] => best
  | best, bestScore, (t, s) :: rest =>
    if s > bestScore then pickMaxGo t s rest else pickMaxGo best bestScore rest

/-- First component of the nonempty score table with the maximal score. -/
def pickMax : List (AgentType × Nat) → Option AgentType
  | [] => none
  | (t, s) :: rest => some (pickMaxGo t s rest)

/-- `AgentRouter._classify_intent_with_keywords`: lower-cases the query,
counts the keyword entries of each agent that occur in it, keeps the
agents with a positive score (in table order) and returns the first with
the maximal score, or `None` when no keyword matched. -/
def classifyIntentWithKeywords (table : List (AgentType × List String))
    (query : String) : Option AgentType :=
  let queryLower := query.toLower
  let intentScores := table.foldl
    (fun acc p =>
      let score := (p.2.filter (fun keyword => strContains queryLower keyword)).length
      if score > 0 then acc ++ [(p.1, score)] else acc)
    []
  pickMax intentScores

/-- `AgentRouter._apply_special_rules`: hand-written composite-query
tie-breaks, falling back to the hard-coded default `ROUTE`. -/
def applySpecialRules (query : String) : Option AgentType :=
  let queryLower := query.toLower
  if ["路线", "导航", "怎么走"].any (fun w => strContains queryLower w) then
    if ["天气", "下雨", "温度"].any (fun w => strContains queryLower w) then
      some .route
    else if ["预算", "费用", "花费"].any (fun w => strContains queryLower w) then
      some .route
    else some .route
  else some .route

/-- `AgentRouter._resolve_intent`: agreement of both phases wins, then the
model phase, then the keyword phase, then the special rules. -/
def resolveIntent (llmIntent keywordIntent : Option AgentType)
    (query : String) : Option AgentType :=
  if llmIntent = keywordIntent ∧ llmIntent ≠ none then llmIntent
  else if llmIntent ≠ none then llmIntent
  else if keywordIntent ≠ none then keywordIntent
  else applySpecialRules query

/-- The full classification with no model-based result (the LLM phase
yielded nothing), as run twice by the determinism property. -/
def classifyNoLLM (table : List (AgentType × List String)) (query : String) :
    Option AgentType :=
  resolveIntent none (classifyIntentWithKeywords table query) query

/-! ## Pipeline executor (`langgraph_workflow.py`)

The workflow state is the Python dict built by `TravelPlanningWorkflow.run`,
embedded as an association list from keys to a closed type of the values
that actually appear in it. -/

/-- The fields of the pydantic `TravelRequest` that the workflow reads
(`_finalize_plan` interpolates them into the integration prompt). -/
structure TravelRequestV where
  destination : String
  starting_location : String
  travel_dates_start : String
  travel_dates_end : String
  duration : Nat
  budget : Nat
  budget_currency : String
deriving DecidableEq, Repr

/-- The values stored in the workflow-state dict: `None`, strings, string
lists (the step bookkeeping), `AgentResult` objects (only `agent_name` and
`content` are read), the travel request, `datetime` readings and the float
`total_execution_time` (clock values are natural ticks). -/
inductive WVal
  | vnone
  | vstr (s : String)
  | vlist (l : List String)
  | vres (agent_name content : String)
  | vreq (r : TravelRequestV)
  | vtime (t : Nat)
  | vnum (n : Nat)
deriving DecidableEq, Repr

/-- The workflow-state dict. -/
abbrev WState := List (String × WVal)

/-- Python truthiness of a stored value (`if ... and value:` in
`_finalize_plan`): `None`, empty strings, empty lists and zero are falsy;
objects are truthy. -/
def truthyW : WVal → Bool
  | .vnone => false
  | .vstr s => !s.isEmpty
  | .vlist l => !l.isEmpty
  | .vres _ _ => true
  | .vreq _ => true
  | .vtime _ => true
  | .vnum n => n != 0

/-- A workflow node's `execute`: given the current state it returns the
key/value pairs to merge, or raises. -/
def NodeB := WState → Except String (List (String × WVal))

/-- Python `state.update(result)`: merge the returned pairs in order. -/
def wupdate (st : WState) (upd : List (String × WVal)) : WState :=
  upd.foldl (fun s kv => assocSet s kv.1 kv.2) st

/-- Python `key.endswith("_result")`, via decidable list-suffix. -/
def strEndsWith (s suffixStr : String) : Bool :=
  decide (suffixStr.data <:+ s.data)

/-- The statically declared stage order `node_order` of
`TravelPlanningWorkflow.run`. -/
def nodeOrder : List String :=
  ["destination", "flight", "hotel", "dining", "itinerary", "budget"]

/-- The initial state dict built at the top of
`TravelPlanningWorkflow.run`. -/
def initState (travel_request : TravelRequestV) (trip_plan_id : String)
    (t0 : Nat) : WState :=
  [ ("travel_request", .vreq travel_request),
    ("trip_plan_id", .vstr trip_plan_id),
    ("current_step", .vstr "开始"),
    ("completed_steps", .vlist []),
    ("failed_steps", .vlist []),
    ("destination_result", .vnone),
    ("flight_result", .vnone),
    ("hotel_result", .vnone),
    ("dining_result", .vnone),
    ("itinerary_result", .vnone),
    ("budget_result", .vnone),
    ("final_plan", .vnone),
    ("plan_status", .vstr "processing"),
    ("error_message", .vnone),
    ("start_time", .vtime t0),
    ("end_time", .vnone),
    ("total_execution_time", .vnone) ]

/-- The per-stage loop of `TravelPlanningWorkflow.run`: for each stage
name in order, call the node against the current state and merge its
result; on a node exception, append the stage name to
`state["failed_steps"]` (if that key does not hold a list, the append
itself raises, escaping to the outer handler — the `.error` case).  The
returned name list is the invocation trace, recording which stages were
entered and in which order. -/
def runNodes (nodes : String → NodeB) :
    List String → WState → List String → Except String (WState × List String)
  | [], st, trace => .ok (st, trace)
  | n :: rest, st, trace =>
    match nodes n st with
    | .ok upd => runNodes nodes rest (wupdate st upd) (trace ++ [n])
    | .error _ =>
      match assocFind st "failed_steps" with
      | some (.vlist l) =>
        runNodes nodes rest (assocSet st "failed_steps" (.vlist (l ++ [n])))
          (trace ++ [n])
      | _ => .error "AttributeError"

/-- `state.items()` entries collected by `_finalize_plan`: keys ending in
`"_result"` whose value is truthy. -/
def collectResults (st : WState) : List (String × WVal) :=
  st.filter (fun kv => strEndsWith kv.1 "_result" && truthyW kv.2)

/-- Reading `.content` off a collected value; anything that is not an
`AgentResult` raises. -/
def resContent : WVal → Option String
  | .vres _ c => some c
  | _ => none

/-- The `.content` of every collected result, or `none` when some
collected value has no such attribute (an `AttributeError` at the first
bad element, as in the source's loop). -/
def contentsOf : List (String × WVal) → Option (List (String × String))
  | [] => some []
  | kv :: t =>
    match resContent kv.2 with
    | none => none
    | some c =>
      match contentsOf t with
      | none => none
      | some cs => some ((kv.1, c) :: cs)

/-- The integration prompt of `_finalize_plan`: the fixed header
interpolating the travel request, one `"\n<key>: <content>\n"` line per
collected result, and the fixed footer. -/
def integrationPrompt (req : TravelRequestV)
    (results : List (String × String)) : String :=
  "请将以下各专业代理的工作结果整合成一个完整的旅行计划：\n\n原始用户请求：\n- 目的地: "
    ++ req.destination
    ++ "\n- 出发地: " ++ req.starting_location
    ++ "\n- 旅行日期: " ++ req.travel_dates_start ++ " 到 " ++ req.travel_dates_end
    ++ "\n- 持续时间: " ++ toString req.duration ++ "天"
    ++ "\n- 预算: " ++ toString req.budget ++ " " ++ req.budget_currency
    ++ "\n\n各代理结果：\n"
    ++ String.join (results.map (fun kv => "\n" ++ kv.1 ++ ": " ++ kv.2 ++ "\n"))
    ++ "\n\n请创建一个完整、连贯、实用的旅行计划，包含：\n1. 执行摘要\n2. 旅行物流\n3. 详细每日行程\n4. 住宿详情\n5. 精选体验\n6. 全面预算\n7. 基本信息\n\n请使用中文回复，格式要清晰易读。"

/-- The dict `_finalize_plan` returns from its `except` branch. -/
def failDict (e : String) : List (String × WVal) :=
  [ ("plan_status", .vstr "failed"),
    ("error_message", .vstr e),
    ("current_step", .vstr "计划失败") ]

/-- The dict `_finalize_plan` returns on success. -/
def successDict (final_plan : String) (tEnd t0 : Nat) : List (String × WVal) :=
  [ ("final_plan", .vstr final_plan),
    ("plan_status", .vstr "completed"),
    ("end_time", .vtime tEnd),
    ("total_execution_time", .vnum (tEnd - t0)),
    ("current_step", .vstr "计划完成") ]

/-- `TravelPlanningWorkflow._finalize_plan`: collects the truthy
`*_result` entries, builds the integration prompt from the travel request
and their `.content`, invokes the text-completion capability (`llm`, which
absorbs both model construction and `ainvoke`, either of which can raise)
and returns the completion dict; every exception along the way — a missing
or ill-typed `travel_request`, a collected value without `.content`, the
model call, an ill-typed `start_time` — is caught and becomes the
`failed` dict. -/
def finalizePlan (llm : String → Except String String) (tEnd : Nat)
    (st : WState) : List (String × WVal) :=
  let results := collectResults st
  match assocFind st "travel_request" with
  | some (.vreq req) =>
    (match contentsOf results with
     | some cs =>
       (match llm (integrationPrompt req cs) with
        | .ok final_plan =>
          (match assocFind st "start_time" with
           | some (.vtime t0) => successDict final_plan tEnd t0
           | none => successDict final_plan tEnd tEnd
           | some _ => failDict "TypeError")
        | .error e => failDict e)
     | none => failDict "AttributeError")
  | _ => failDict "AttributeError"

/-- `TravelPlanningWorkflow.run`: initial state, the per-stage loop, then
`_finalize_plan` merged into the state; the outer `except` turns an
escaped exception into a fresh three-key failure dict.  The second
component is the stage invocation trace (`[]` on the outer-failure path,
where it is not observed). -/
def wfRun (nodes : String → NodeB) (llm : String → Except String String)
    (travel_request : TravelRequestV) (trip_plan_id : String)
    (t0 tEnd : Nat) : WState × List String :=
  match runNodes nodes nodeOrder (initState travel_request trip_plan_id t0) [] with
  | .ok (st, trace) => (wupdate st (finalizePlan llm tEnd st), trace)
  | .error e =>
    ([ ("plan_status", .vstr "failed"),
       ("error_message", .vstr e),
       ("final_plan", .vstr ("工作流执行失败: " ++ e)) ], [])

/-- Behaviour of one stage's node in a given run: it raises, or it
succeeds producing its result content. -/
inductive StageAct
  | fails (msg : String)
  | succeeds (content : String)
deriving DecidableEq, Repr

/-- Whether a stage behaviour is a success. -/
def StageAct.isSucc : StageAct → Bool
  | .succeeds _ => true
  | .fails _ => false

/-- Modelled from the spec: the per-stage node functions
(`destination_node`, `flight_node`, ... of `backend/agents/langgraph_nodes.py`)
are not present under `src/`; only their caller `langgraph_workflow.py`
is.  Following the spec (§4.4 step 2 and the §8 end-to-end scenarios,
where a successful stage leaves its `<stage>_result` in the state and the
final `completed_steps` lists exactly the successful stage names in
order), a successful node returns its own result entry, the
`completed_steps` list extended with its own name, and a `current_step`
label; a failing node raises. -/
def specNode (beh : String → StageAct) (name : String) : NodeB := fun st =>
  match beh name with
  | .fails m => .error m
  | .succeeds c =>
    .ok [ (name ++ "_result", .vres (name ++ "_agent") c),
          ("completed_steps",
           .vlist ((match assocFind st "completed_steps" with
                    | some (.vlist l) => l
                    | _ => []) ++ [name])),
          ("current_step", .vstr name) ]

/-- Invariant of a workflow state: every entry whose key ends in
`"_result"` holds `None` or an `AgentResult`. -/
def resultInv (st : WState) : Prop :=
  ∀ k v, (k, v) ∈ st → strEndsWith k "_result" = true →
    v = WVal.vnone ∨ ∃ a c, v = WVal.vres a c

/-- Boolean form of the value side of `resultInv`. -/
def resOk : WVal → Bool
  | .vnone => true
  | .vres _ _ => true
  | _ => false

/-! ## Concrete fixtures used by counterexamples and witnesses -/

/-- A broker with no agents registered. -/
def emptyState : ProtocolState :=
  { agents := [], handlers := [], pending := [], nextId := 0 }

/-- A fixed successful handler response. -/
def okResponse0 : ResponseMessage :=
  { from_agent := "router", to_agent := "planner", action := "plan",
    payload := [], success := true, error := none, original_request_id := none }

/-- A handler that completes with `okResponse0`. -/
def okHandler0 : Handler := fun _ => .ok okResponse0

/-- A handler that raises `"boom"`. -/
def exnHandler0 : Handler := fun _ => .exn "boom"

/-- A handler that never returns. -/
def divergeHandler0 : Handler := fun _ => .diverge

/-- A broker with one agent `"router"` whose `"plan"` action runs `h`. -/
def stateWith (h : Handler) : ProtocolState :=
  { agents := [("router", 0)]
    handlers := [("router", [("plan", h)])]
    pending := []
    nextId := 0 }

/-- A duplicate (late) response correlated to request `5`. -/
def dupResponse : ResponseMessage :=
  { from_agent := "router", to_agent := "planner", action := "plan",
    payload := [], success := true, error := none, original_request_id := some 5 }

/-- A concrete travel request for workflow runs. -/
def reqW : TravelRequestV :=
  { destination := "拉萨", starting_location := "成都",
    travel_dates_start := "2026-05-01", travel_dates_end := "2026-05-07",
    duration := 7, budget := 75000, budget_currency := "CNY" }

/-- Stage behaviours where only the `"flight"` stage raises. -/
def behW : String → StageAct := fun n =>
  if n = "flight" then .fails "boom" else .succeeds ("result for " ++ n)

/-- A text-completion capability that always succeeds. -/
def llmOk : String → Except String String := fun _ => .ok "整合计划"

/-- A text-completion capability that always raises. -/
def llmErr : String → Except String String := fun _ => .error "LLM down"

/-! ## Association-list lemmas -/

theorem assocFind_assocSet_self {κ α : Type} [DecidableEq κ]
    (l : List (κ × α)) (k : κ) (v : α) :
    assocFind (assocSet l k v) k = some v := by
  induction l with
  | nil => simp [assocSet, assocFind]
  | cons hd t ih =>
    obtain ⟨k1, v1⟩ := hd
    by_cases hk : k1 = k
    · simp [assocSet, hk, assocFind]
    · simp [assocSet, hk, assocFind, ih]

theorem assocFind_assocSet_ne {κ α : Type} [DecidableEq κ]
    (l : List (κ × α)) (k k0 : κ) (v : α) (h : k ≠ k0) :
    assocFind (assocSet l k v) k0 = assocFind l k0 := by
  induction l with
  | nil => simp [assocSet, assocFind, h]
  | cons hd t ih =>
    obtain ⟨k1, v1⟩ := hd
    by_cases hk : k1 = k
    · subst hk; simp [assocSet, assocFind, h]
    · simp [assocSet, hk, assocFind, ih]

theorem assocFind_eq_none_of_not_mem {κ α : Type} [DecidableEq κ]
    (l : List (κ × α)) (k : κ) (h : k ∉ l.map Prod.fst) :
    assocFind l k = none := by
  induction l with
  | nil => rfl
  | cons hd t ih =>
    obtain ⟨k1, v1⟩ := hd
    simp only [List.map_cons, List.mem_cons] at h
    push_neg at h
    have hk : ¬ k1 = k := fun hh => h.1 hh.symm
    simp [assocFind, hk, ih h.2]

theorem assocErase_assocSet_fresh {κ α : Type} [DecidableEq κ]
    (l : List (κ × α)) (k : κ) (v : α) (h : assocFind l k = none) :
    assocErase (assocSet l k v) k = l := by
  induction l with
  | nil => simp [assocSet, assocErase]
  | cons hd t ih =>
    obtain ⟨k1, v1⟩ := hd
    by_cases hk : k1 = k
    · simp [assocFind, hk] at h
    · simp only [assocFind, hk, if_false] at h
      simp [assocSet, assocErase, hk, ih h]

theorem assocFind_assocErase_self {κ α : Type} [DecidableEq κ]
    (l : List (κ × α)) (k : κ) (hnd : (l.map Prod.fst).Nodup) :
    assocFind (assocErase l k) k = none := by
  induction l with
  | nil => rfl
  | cons hd t ih =>
    obtain ⟨k1, v1⟩ := hd
    simp only [List.map_cons, List.nodup_cons] at hnd
    by_cases hk : k1 = k
    · subst hk
      simp [assocErase, assocFind_eq_none_of_not_mem t k1 hnd.1]
    · simp [assocErase, hk, assocFind, ih hnd.2]

theorem mem_assocSet {κ α : Type} [DecidableEq κ]
    {l : List (κ × α)} {k : κ} {v : α} {kv : κ × α}
    (h : kv ∈ assocSet l k v) : kv ∈ l ∨ kv = (k, v) := by
  induction l with
  | nil =>
    simp only [assocSet, List.mem_singleton] at h
    exact .inr h
  | cons hd t ih =>
    obtain ⟨k1, v1⟩ := hd
    by_cases hk : k1 = k
    · simp only [assocSet, hk, if_true, List.mem_cons] at h ⊢
      rcases h with h | h
      · subst hk; exact .inr (by simpa using h)
      · exact .inl (.inr h)
    · simp only [assocSet, hk, if_false, List.mem_cons] at h ⊢
      rcases h with h | h
      · exact .inl (.inl h)
      · rcases ih h with h2 | h2
        · exact .inl (.inr h2)
        · exact .inr h2

/-- State inversion for `send_message` on a request: when the call
returns, the protocol state is unchanged (request dispatch mutates
nothing). -/
theorem sendMessage_req_state {S : ProtocolState} {r : RequestMessage}
    {o : Option ResponseMessage} {S2 : ProtocolState}
    (h : sendMessage S (.req r) = .ret o S2) : S2 = S := by
  unfold sendMessage at h
  by_cases hA : (assocFind S.agents (AgentMsg.to_agent (.req r))).isNone
  · rw [if_pos hA] at h
    cases h; rfl
  · rw [if_neg hA] at h
    cases hr : handleRequest S r with
    | some resp =>
      simp only [hr] at h
      cases h; rfl
    | none =>
      simp only [hr] at h
      exact absurd h (by simp)

/-! ## C10 — re-registration resets the handler table, frames the rest -/

/-- C10: re-registering an agent name unconditionally resets that name's
handler table to empty (every previously registered handler becomes
unreachable), while the registry entries and handler tables of all other
names, and the pending-request map, are unchanged. -/
theorem registerAgent_resets_and_frames (S : ProtocolState) (name : String)
    (inst : Nat) :
    assocFind (registerAgent S name inst).agents name = some inst ∧
    assocFind (registerAgent S name inst).handlers name = some [] ∧
    (∀ action, lookupHandler (registerAgent S name inst) name action = none) ∧
    (∀ other, other ≠ name →
      assocFind (registerAgent S name inst).agents other =
        assocFind S.agents other) ∧
    (∀ other, other ≠ name →
      assocFind (registerAgent S name inst).handlers other =
        assocFind S.handlers other) ∧
    (registerAgent S name inst).pending = S.pending := by
  refine ⟨assocFind_assocSet_self .., assocFind_assocSet_self .., ?_, ?_, ?_, rfl⟩
  · intro action
    simp [lookupHandler, registerAgent, assocFind_assocSet_self, assocFind]
  · intro other hother
    exact assocFind_assocSet_ne _ _ _ _ (Ne.symm hother)
  · intro other hother
    exact assocFind_assocSet_ne _ _ _ _ (Ne.symm hother)

/-- C10 witness: re-registering `"router"` over a state that had a
`"plan"` handler empties its table and leaves another name's registry
lookup unchanged. -/
theorem registerAgent_resets_and_frames_witness :
    assocFind (registerAgent (stateWith exnHandler0) "router" 7).handlers "router" =
      some [] ∧
    lookupHandler (registerAgent (stateWith exnHandler0) "router" 7) "router" "plan" =
      none ∧
    assocFind (registerAgent (stateWith exnHandler0) "router" 7).agents "planner" =
      assocFind (stateWith exnHandler0).agents "planner" :=
  ⟨(registerAgent_resets_and_frames (stateWith exnHandler0) "router" 7).2.1,
   (registerAgent_resets_and_frames (stateWith exnHandler0) "router" 7).2.2.1 "plan",
   (registerAgent_resets_and_frames (stateWith exnHandler0) "router" 7).2.2.2.1
     "planner" (by decide)⟩

/-! ## C3 — handler exceptions become failure responses -/

/-- C3: a request to a registered agent whose handler raises is answered
by a failure response carrying the exception message; the exception does
not propagate (the dispatch returns normally with that response and the
state unchanged). -/
theorem handler_exception_becomes_failure (S : ProtocolState)
    (request : RequestMessage) (h : Handler) (e : String)
    (hreg : (assocFind S.agents request.to_agent).isSome = true)
    (hh : lookupHandler S request.to_agent request.action = some h)
    (hexn : h (.req request) = .exn e) :
    sendMessage S (.req request) =
      .ret (some (handlerErrorResponse request e)) S ∧
    (handlerErrorResponse request e).success = false ∧
    (handlerErrorResponse request e).error = some e := by
  refine ⟨?_, rfl, rfl⟩
  obtain ⟨inst, hA⟩ := Option.isSome_iff_exists.mp hreg
  simp [sendMessage, AgentMsg.to_agent, hA, handleRequest, hh, hexn]

/-- C3 witness: the raising `"boom"` handler produces a `success=false`
response with error `"boom"`. -/
theorem handler_exception_becomes_failure_witness :
    sendMessage (stateWith exnHandler0)
        (.req (mkRequest (stateWith exnHandler0) "planner" "router" "plan" [] (some 30) .normal)) =
      .ret (some (handlerErrorResponse
        (mkRequest (stateWith exnHandler0) "planner" "router" "plan" [] (some 30) .normal)
        "boom")) (stateWith exnHandler0) ∧
    (handlerErrorResponse
      (mkRequest (stateWith exnHandler0) "planner" "router" "plan" [] (some 30) .normal)
      "boom").success = false ∧
    (handlerErrorResponse
      (mkRequest (stateWith exnHandler0) "planner" "router" "plan" [] (some 30) .normal)
      "boom").error = some "boom" :=
  handler_exception_becomes_failure (stateWith exnHandler0) _ exnHandler0 "boom"
    rfl rfl rfl

/-! ## C4 — resolving a request slot is idempotent -/

/-- C4: once the pending slot of a `request_id` has been resolved by a
first response or removed by a timeout (so the map no longer holds it),
delivering a further response with the same `original_request_id` through
`send_message` is a no-op: it returns `None`, raises nothing, and leaves
the whole protocol state — including the already-delivered result —
unchanged. -/
theorem duplicate_response_is_noop (S : ProtocolState)
    (response : ResponseMessage) (rid : Nat)
    (horig : response.original_request_id = some rid)
    (hgone : assocFind S.pending rid = none) :
    sendMessage S (.resp response) = .ret none S := by
  unfold sendMessage
  by_cases hA : (assocFind S.agents (AgentMsg.to_agent (.resp response))).isNone
  · rw [if_pos hA]
  · rw [if_neg hA]
    simp [handleResponse, horig, hgone]

/-- C4 witness: a late duplicate response for request `5` delivered to an
empty broker changes nothing. -/
theorem duplicate_response_is_noop_witness :
    sendMessage emptyState (.resp dupResponse) = .ret none emptyState :=
  duplicate_response_is_noop emptyState dupResponse 5 rfl rfl

/-! ## Projections of the constructed request -/

theorem mkRequest_to_agent (S : ProtocolState) (fa toA act : String)
    (p : List (String × String)) (t : Option Nat) (pr : MessagePriority) :
    (mkRequest S fa toA act p t pr).to_agent = toA := rfl

theorem mkRequest_action (S : ProtocolState) (fa toA act : String)
    (p : List (String × String)) (t : Option Nat) (pr : MessagePriority) :
    (mkRequest S fa toA act p t pr).action = act := rfl

theorem mkRequest_request_id (S : ProtocolState) (fa toA act : String)
    (p : List (String × String)) (t : Option Nat) (pr : MessagePriority) :
    (mkRequest S fa toA act p t pr).request_id = S.nextId := rfl

/-! ## C1 — requests to an unknown agent -/

/-- C1 counterexample: on a broker with no agents, `send_request` to the
unregistered name `"router"` waits out the full 30-unit timeout and then
returns the synthetic `"Request timeout"` failure — not a "not found"
error, and not without waiting. -/
theorem unknown_agent_counterexample :
    (sendRequest emptyState "planner" "router" "plan" [] (some 30) .normal).waitedFullTimeout
      = true ∧
    (sendRequest emptyState "planner" "router" "plan" [] (some 30) .normal).response?.map
        ResponseMessage.error = some (some "Request timeout") ∧
    assocFind emptyState.agents "router" = none :=
  ⟨rfl, rfl, rfl⟩

/-- C1 amended: for a request to an unregistered agent name,
`send_message` returns `None` (no "agent not found" response is built), so
`send_request` waits out the full timeout and returns `success=false` with
error `"Request timeout"`; it raises no exception, but it does wait the
whole timeout, and with a falsy timeout (`None` or `0`) it never returns
at all. -/
theorem unknown_agent_amended (S : ProtocolState) (fa toA act : String)
    (p : List (String × String)) (t : Option Nat) (pr : MessagePriority)
    (hunknown : assocFind S.agents toA = none)
    (ht : truthy t = true)
    (hfresh : assocFind S.pending S.nextId = none) :
    sendRequest S fa toA act p t pr =
      .afterTimeout (timeoutResponse (mkRequest S fa toA act p t pr))
        { S with nextId := S.nextId + 1 } ∧
    (timeoutResponse (mkRequest S fa toA act p t pr)).success = false ∧
    (timeoutResponse (mkRequest S fa toA act p t pr)).error = some "Request timeout" ∧
    (∀ t2, truthy t2 = false → sendRequest S fa toA act p t2 pr = .hang) := by
  refine ⟨?_, rfl, rfl, ?_⟩
  · unfold sendRequest
    simp [sendMessage, AgentMsg.to_agent, mkRequest_to_agent, hunknown, ht,
      assocErase_assocSet_fresh _ _ _ hfresh]
  · intro t2 ht2
    unfold sendRequest
    simp [sendMessage, AgentMsg.to_agent, mkRequest_to_agent, hunknown, ht2]

/-- C1 witness: the amended statement at the empty broker with timeout
30. -/
theorem unknown_agent_amended_witness :
    sendRequest emptyState "planner" "router" "plan" [] (some 30) .normal =
      .afterTimeout
        (timeoutResponse (mkRequest emptyState "planner" "router" "plan" [] (some 30) .normal))
        { emptyState with nextId := 1 } ∧
    (timeoutResponse (mkRequest emptyState "planner" "router" "plan" [] (some 30) .normal)).error
      = some "Request timeout" :=
  ⟨(unknown_agent_amended emptyState "planner" "router" "plan" [] (some 30) .normal
      rfl rfl rfl).1,
   (unknown_agent_amended emptyState "planner" "router" "plan" [] (some 30) .normal
      rfl rfl rfl).2.2.1⟩

/-! ## C2 — totality and correlation of `send_request` -/

/-- C2 counterexample: two calls with a finite timeout that never return a
response: with `timeout=0` (finite but falsy, so the bare `await future`
is taken) to an unknown agent, and with `timeout=30` to a handler that
never returns (the inline dispatch happens before, and outside, the
timed wait). -/
theorem send_request_hangs_counterexample :
    sendRequest emptyState "planner" "router" "plan" [] (some 0) .normal = .hang ∧
    sendRequest (stateWith divergeHandler0) "planner" "router" "plan" [] (some 30) .normal
      = .hang :=
  ⟨rfl, rfl⟩

/-- C2 amended: provided the timeout is truthy (neither `None` nor `0`)
and the dispatched handler, if one is registered for the destination
action, terminates on the constructed request, `send_request` returns a
`ResponseMessage` (it neither raises nor waits past the timeout), and that
response's `original_request_id` equals the `request_id` of the request
the call constructed and sent. -/
theorem send_request_total_amended (S : ProtocolState) (fa toA act : String)
    (p : List (String × String)) (t : Option Nat) (pr : MessagePriority)
    (ht : truthy t = true)
    (hterm : ∀ h : Handler, lookupHandler S toA act = some h →
      h (.req (mkRequest S fa toA act p t pr)) ≠ .diverge) :
    ∃ r : ResponseMessage,
      (sendRequest S fa toA act p t pr).response? = some r ∧
      r.original_request_id = some S.nextId := by
  unfold sendRequest
  cases hA : assocFind S.agents toA with
  | none =>
    refine ⟨timeoutResponse (mkRequest S fa toA act p t pr), ?_, rfl⟩
    simp [sendMessage, AgentMsg.to_agent, mkRequest_to_agent, hA, ht,
      SendReqResult.response?]
  | some inst =>
    cases hh : lookupHandler S toA act with
    | none =>
      refine ⟨noHandlerResponse (mkRequest S fa toA act p t pr), ?_, rfl⟩
      simp only [lookupHandler] at hh
      simp [sendMessage, AgentMsg.to_agent, mkRequest_to_agent, hA,
        handleRequest, lookupHandler, mkRequest_action, hh,
        SendReqResult.response?]
    | some h =>
      simp only [lookupHandler] at hh
      cases hout : h (.req (mkRequest S fa toA act p t pr)) with
      | ok r =>
        refine ⟨{ r with original_request_id := some S.nextId }, ?_, rfl⟩
        simp [sendMessage, AgentMsg.to_agent, mkRequest_to_agent, hA,
          handleRequest, lookupHandler, mkRequest_action, hh, hout,
          mkRequest_request_id, SendReqResult.response?]
      | exn e =>
        refine ⟨handlerErrorResponse (mkRequest S fa toA act p t pr) e, ?_, rfl⟩
        simp [sendMessage, AgentMsg.to_agent, mkRequest_to_agent, hA,
          handleRequest, lookupHandler, mkRequest_action, hh, hout,
          SendReqResult.response?]
      | diverge =>
        exact absurd hout (hterm h (by simpa [lookupHandler] using hh))

/-- C2 witness: the amended statement at the broker holding the raising
handler, with timeout 30. -/
theorem send_request_total_amended_witness :
    ∃ r : ResponseMessage,
      (sendRequest (stateWith exnHandler0) "planner" "router" "plan" [] (some 30) .normal).response?
        = some r ∧
      r.original_request_id = some 0 :=
  send_request_total_amended (stateWith exnHandler0) "planner" "router" "plan"
    [] (some 30) .normal rfl
    (by intro h hh e; rw [show h = exnHandler0 from (by simpa [lookupHandler, assocFind] using hh : exnHandler0 = h).symm] at e; exact absurd e (by simp [exnHandler0]))

/-! ## C5 — pending-slot lifecycle -/

/-- C5 counterexample: when the handler answers synchronously,
`send_request` returns but the pending slot keyed by the call's
`request_id` (here `0`) is still in the map, resolved but never removed. -/
theorem pending_slot_counterexample :
    (sendRequest (stateWith okHandler0) "planner" "router" "plan" [] (some 30) .normal).pendingAfter.map
        (fun pm => assocFind pm 0) =
      some (some (.done { okResponse0 with original_request_id := some 0 })) :=
  rfl

/-- C5 amended: the pending slot of a request is removed when the wait
times out and when a response message resolves it through
`send_message`/`_handle_response`; but when `send_request` returns a
synchronously delivered response, the slot stays in the map (as a
resolved future). -/
theorem pending_slot_lifecycle_amended :
    (∀ (S : ProtocolState) (fa toA act : String) (p : List (String × String))
        (t : Option Nat) (pr : MessagePriority) (r : ResponseMessage)
        (S2 : ProtocolState),
      assocFind S.pending S.nextId = none →
      sendRequest S fa toA act p t pr = .afterTimeout r S2 →
      assocFind S2.pending S.nextId = none) ∧
    (∀ (S : ProtocolState) (response : ResponseMessage) (rid : Nat)
        (f : FutureState),
      response.original_request_id = some rid →
      assocFind S.pending rid = some f →
      (S.pending.map Prod.fst).Nodup →
      assocFind (handleResponse S response).pending rid = none) ∧
    (∀ (S : ProtocolState) (fa toA act : String) (p : List (String × String))
        (t : Option Nat) (pr : MessagePriority) (h : Handler)
        (r : ResponseMessage),
      (assocFind S.agents toA).isSome = true →
      lookupHandler S toA act = some h →
      h (.req (mkRequest S fa toA act p t pr)) = .ok r →
      ∃ S2, sendRequest S fa toA act p t pr =
          .immediate { r with original_request_id := some S.nextId } S2 ∧
        assocFind S2.pending S.nextId =
          some (.done { r with original_request_id := some S.nextId })) := by
  refine ⟨?_, ?_, ?_⟩
  · intro S fa toA act p t pr r S2 hfresh heq
    unfold sendRequest at heq
    cases hsm : sendMessage
        { S with nextId := S.nextId + 1, pending := assocSet S.pending S.nextId .notDone }
        (.req (mkRequest S fa toA act p t pr)) with
    | hang =>
      rw [hsm] at heq
      exact absurd heq (by simp)
    | ret o S2x =>
      have hS2x := sendMessage_req_state hsm
      rw [hsm] at heq
      cases o with
      | some resp =>
        simp only [] at heq
        exact absurd heq (by simp)
      | none =>
        by_cases htt : truthy t
        · simp only [htt, if_true] at heq
          cases heq
          rw [hS2x]
          simp [assocErase_assocSet_fresh _ _ _ hfresh, hfresh]
        · simp only [htt] at heq
          exact absurd heq (by simp)
  · intro S response rid f horig hslot hnd
    simp [handleResponse, horig, hslot, assocFind_assocErase_self _ _ hnd]
  · intro S fa toA act p t pr h r hA hh hout
    obtain ⟨inst, hAeq⟩ := Option.isSome_iff_exists.mp hA
    simp only [lookupHandler] at hh
    refine ⟨{ S with
        nextId := S.nextId + 1
        pending := assocSet (assocSet S.pending S.nextId .notDone) S.nextId
          (.done { r with original_request_id := some S.nextId }) }, ?_, ?_⟩
    · unfold sendRequest
      simp [sendMessage, AgentMsg.to_agent, mkRequest_to_agent, hAeq,
        handleRequest, lookupHandler, mkRequest_action, hh, hout,
        mkRequest_request_id, assocFind_assocSet_self]
    · simp [assocFind_assocSet_self]

/-- C5 witness: the synchronous-response conjunct applied at the broker
with the completing handler; the slot for request `0` remains, resolved. -/
theorem pending_slot_lifecycle_amended_witness :
    ∃ S2, sendRequest (stateWith okHandler0) "planner" "router" "plan" [] (some 30) .normal =
        .immediate { okResponse0 with original_request_id := some 0 } S2 ∧
      assocFind S2.pending 0 =
        some (.done { okResponse0 with original_request_id := some 0 }) :=
  pending_slot_lifecycle_amended.2.2 (stateWith okHandler0) "planner" "router"
    "plan" [] (some 30) .normal okHandler0 okResponse0 rfl rfl rfl

/-! ## C8 — `execute` on a raising task -/

/-- C8 counterexample: on a task that raises, `execute` sets status
`error` and returns a failure result, but the timing statistics are NOT
accumulated — after a 5-unit failing run from a fresh agent,
`_execution_count` and `_total_execution_time` are still `0` (the claim
expects them to include the run). -/
theorem execute_error_counterexample :
    (agentExecute "router" { status := .idle, execution_count := 0, total_execution_time := 0 }
        (.exn "boom") 5).2 =
      { status := .error, execution_count := 0, total_execution_time := 0 } ∧
    (agentExecute "router" { status := .idle, execution_count := 0, total_execution_time := 0 }
        (.exn "boom") 5).1.success = false :=
  ⟨rfl, rfl⟩

/-- C8 amended: when the task logic raises, `execute` sets the agent's
status to `"error"` and returns a structured failure result (never
re-raising) that carries the exception message and the elapsed duration
in its `execution_time` field; the agent's cumulative counters
(`_execution_count`, `_total_execution_time`) are left untouched — they
accumulate only on the success path, which also increments the count and
adds the elapsed time. -/
theorem execute_error_amended (name e : String) (st : AgentState)
    (elapsed : Nat) (r : AgentResponse) :
    agentExecute name st (.exn e) elapsed =
      ({ success := false
         data := none
         message := "执行失败: " ++ e
         agent_name := name
         execution_time := elapsed },
       { st with status := .error }) ∧
    agentExecute name st (.ok r) elapsed =
      (r,
       { status := .completed
         execution_count := st.execution_count + 1
         total_execution_time := st.total_execution_time + elapsed }) :=
  ⟨rfl, rfl⟩

/-! ## C9 — router keyword-phase determinism -/

/-- The special rules always produce the hard-coded default. -/
theorem applySpecialRules_eq_route (query : String) :
    applySpecialRules query = some .route := by
  simp only [applySpecialRules]
  split
  · split
    · rfl
    · split <;> rfl
  · rfl

/-- C9: with no model-based classifier result, classification over a fixed
keyword table is a pure function of the table and the query — two runs
return the same result — and that result is always exactly one agent name
(the keyword winner, or the special-rule / hard-coded default). -/
theorem router_keyword_deterministic (table : List (AgentType × List String))
    (query : String) :
    classifyNoLLM table query = classifyNoLLM table query ∧
    ∃ a : AgentType, classifyNoLLM table query = some a := by
  refine ⟨rfl, ?_⟩
  unfold classifyNoLLM resolveIntent
  cases hk : classifyIntentWithKeywords table query with
  | none => simpa using ⟨_, applySpecialRules_eq_route query⟩
  | some a => exact ⟨a, by simp⟩

/-! ## Workflow: key and state lemmas -/

theorem str_data_append (a b : String) : (a ++ b).data = a.data ++ b.data := rfl

theorem strEndsWith_append (a s : String) : strEndsWith (a ++ s) s = true := by
  simp only [strEndsWith, str_data_append, decide_eq_true_eq]
  exact List.suffix_append _ _

/-- No string whose data does not end in `"_result"` can be of the form
`n ++ "_result"`. -/
theorem append_result_ne (n k : String) (hk : strEndsWith k "_result" = false) :
    n ++ "_result" ≠ k := by
  intro h
  rw [← h, strEndsWith_append] at hk
  cases hk

/-- `· ++ "_result"` is injective on stage names. -/
theorem result_key_inj {m n : String} (h : m ++ "_result" = n ++ "_result") :
    m = n := by
  have hd := congrArg String.data h
  rw [str_data_append, str_data_append] at hd
  have h2 := List.append_cancel_right hd
  cases m; cases n
  exact congrArg String.mk h2

theorem wupdate_nil (st : WState) : wupdate st [] = st := rfl

theorem wupdate_cons (st : WState) (p : String × WVal)
    (t : List (String × WVal)) :
    wupdate st (p :: t) = wupdate (assocSet st p.1 p.2) t := rfl

theorem wupdate3 (st : WState) (k1 k2 k3 : String) (v1 v2 v3 : WVal) :
    wupdate st [(k1, v1), (k2, v2), (k3, v3)] =
      assocSet (assocSet (assocSet st k1 v1) k2 v2) k3 v3 := rfl

theorem assocFind_wupdate_of_ne (st : WState) (upd : List (String × WVal))
    (k : String) (h : ∀ kv ∈ upd, kv.1 ≠ k) :
    assocFind (wupdate st upd) k = assocFind st k := by
  induction upd generalizing st with
  | nil => rfl
  | cons hd t ih =>
    rw [wupdate_cons,
      ih _ (fun kv hm => h kv (List.mem_cons_of_mem _ hm))]
    exact assocFind_assocSet_ne _ _ _ _ (h hd (List.mem_cons_self _ _))

theorem mem_wupdate {st : WState} {upd : List (String × WVal)}
    {kv : String × WVal} (h : kv ∈ wupdate st upd) : kv ∈ st ∨ kv ∈ upd := by
  induction upd generalizing st with
  | nil => exact .inl h
  | cons hd t ih =>
    rw [wupdate_cons] at h
    rcases ih h with h2 | h2
    · rcases mem_assocSet h2 with h3 | h3
      · exact .inl h3
      · right
        rw [h3]
        exact List.mem_cons_self _ _
    · exact .inr (List.mem_cons_of_mem _ h2)

theorem resultInv_assocSet {st : WState} {k0 : String} {v0 : WVal}
    (hInv : resultInv st)
    (hv : strEndsWith k0 "_result" = true →
      v0 = WVal.vnone ∨ ∃ a c, v0 = WVal.vres a c) :
    resultInv (assocSet st k0 v0) := by
  intro k v hm hk
  rcases mem_assocSet hm with h | h
  · exact hInv k v h hk
  · injection h with h1 h2
    subst h1
    subst h2
    exact hv hk

/-- A state whose every binding passes the boolean key/value check
satisfies the result invariant. -/
theorem resultInv_of_all (st : WState)
    (h : (st.all fun kv => !(strEndsWith kv.1 "_result") || resOk kv.2) = true) :
    resultInv st := by
  intro k v hm hk
  have h2 := List.all_eq_true.mp h (k, v) hm
  rw [hk] at h2
  cases v <;> simp [resOk] at h2 ⊢

theorem initState_resultInv (req : TravelRequestV) (tp : String) (t0 : Nat) :
    resultInv (initState req tp t0) :=
  resultInv_of_all _ rfl

theorem contentsOf_total (l : List (String × WVal))
    (h : ∀ kv ∈ l, (resContent kv.2).isSome = true) :
    ∃ cs, contentsOf l = some cs := by
  induction l with
  | nil => exact ⟨[], rfl⟩
  | cons hd t ih =>
    obtain ⟨c, hcv⟩ :=
      Option.isSome_iff_exists.mp (h hd (List.mem_cons_self _ _))
    obtain ⟨cs, hcs⟩ := ih (fun kv hm => h kv (List.mem_cons_of_mem _ hm))
    exact ⟨(hd.1, c) :: cs, by simp [contentsOf, hcv, hcs]⟩

/-- Every state satisfying the invariant yields a defined `.content`
collection (the `_finalize_plan` result loop cannot raise). -/
theorem contentsOf_collect (st : WState) (hInv : resultInv st) :
    ∃ cs, contentsOf (collectResults st) = some cs := by
  apply contentsOf_total
  intro kv hm
  obtain ⟨hmem, hp⟩ := List.mem_filter.mp hm
  obtain ⟨h1, h2⟩ := Bool.and_eq_true_iff.mp hp
  rcases hInv kv.1 kv.2 hmem h1 with h3 | ⟨a, c, h3⟩
  · rw [h3] at h2
    cases h2
  · rw [h3]
    rfl

/-- A successful stage node returns exactly its three-key update. -/
theorem specNode_succeeds (beh : String → StageAct) (n : String) (c : String)
    (st : WState) (cs : List String)
    (hb : beh n = .succeeds c)
    (hc : assocFind st "completed_steps" = some (.vlist cs)) :
    specNode beh n st =
      .ok [ (n ++ "_result", .vres (n ++ "_agent") c),
            ("completed_steps", .vlist (cs ++ [n])),
            ("current_step", .vstr n) ] := by
  simp only [specNode, hb, hc]

/-- Main loop lemma: running the per-stage loop with spec-modelled nodes
over any duplicate-free stage list visits every stage in order (the trace
extends by exactly the list), accumulates the successful names onto
`completed_steps` and the failing names onto `failed_steps` in order,
stores each successful stage's result under its own `_result` key, leaves
every other key untouched, and preserves the result invariant. -/
theorem runNodes_spec (beh : String → StageAct) :
    ∀ (order : List String), order.Nodup →
    ∀ (st : WState) (trace cs fs : List String),
    assocFind st "completed_steps" = some (.vlist cs) →
    assocFind st "failed_steps" = some (.vlist fs) →
    resultInv st →
    ∃ st2,
      runNodes (specNode beh) order st trace = .ok (st2, trace ++ order) ∧
      assocFind st2 "completed_steps" =
        some (.vlist (cs ++ order.filter (fun n => (beh n).isSucc))) ∧
      assocFind st2 "failed_steps" =
        some (.vlist (fs ++ order.filter (fun n => !(beh n).isSucc))) ∧
      (∀ k, k ≠ "completed_steps" → k ≠ "failed_steps" → k ≠ "current_step" →
        (∀ n, n ∈ order → k ≠ n ++ "_result") →
        assocFind st2 k = assocFind st k) ∧
      (∀ n c, n ∈ order → beh n = .succeeds c →
        assocFind st2 (n ++ "_result") = some (.vres (n ++ "_agent") c)) ∧
      resultInv st2 := by
  intro order
  induction order with
  | nil =>
    intro _ st trace cs fs hc hf hInv
    refine ⟨st, ?_, ?_, ?_, ?_, ?_, hInv⟩
    · simp [runNodes]
    · simpa using hc
    · simpa using hf
    · intro k _ _ _ _
      rfl
    · intro n c hn
      exact absurd hn (List.not_mem_nil n)
  | cons n rest ih =>
    intro hnd st trace cs fs hc hf hInv
    rw [List.nodup_cons] at hnd
    cases hb : beh n with
    | fails m =>
      have hc2 : assocFind (assocSet st "failed_steps" (.vlist (fs ++ [n])))
          "completed_steps" = some (.vlist cs) := by
        rw [assocFind_assocSet_ne _ _ _ _ (by decide)]
        exact hc
      have hf2 : assocFind (assocSet st "failed_steps" (.vlist (fs ++ [n])))
          "failed_steps" = some (.vlist (fs ++ [n])) :=
        assocFind_assocSet_self _ _ _
      have hInv2 : resultInv (assocSet st "failed_steps" (.vlist (fs ++ [n]))) :=
        resultInv_assocSet hInv (fun hk => absurd hk (by decide))
      obtain ⟨st2, hrun, h1, h2, hfr, hsl, hI⟩ :=
        ih hnd.2 _ (trace ++ [n]) cs (fs ++ [n]) hc2 hf2 hInv2
      refine ⟨st2, ?_, ?_, ?_, ?_, ?_, hI⟩
      · simp only [runNodes, specNode, hb, hf]
        rw [hrun]
        simp
      · rw [h1]
        simp [List.filter_cons, hb, StageAct.isSucc]
      · rw [h2]
        simp [List.filter_cons, hb, StageAct.isSucc]
      · intro k hk1 hk2 hk3 hk4
        rw [hfr k hk1 hk2 hk3 (fun n2 hn2 => hk4 n2 (List.mem_cons_of_mem _ hn2))]
        exact assocFind_assocSet_ne _ _ _ _ (Ne.symm hk2)
      · intro n0 c hn0 hbc
        rcases List.mem_cons.mp hn0 with rfl | hn0r
        · rw [hb] at hbc
          cases hbc
        · exact hsl n0 c hn0r hbc
    | succeeds c =>
      have hne1 : (n ++ "_result") ≠ "completed_steps" :=
        append_result_ne n _ (by decide)
      have hne2 : (n ++ "_result") ≠ "failed_steps" :=
        append_result_ne n _ (by decide)
      have hne3 : (n ++ "_result") ≠ "current_step" :=
        append_result_ne n _ (by decide)
      have hc2 : assocFind
          (assocSet (assocSet (assocSet st (n ++ "_result")
              (.vres (n ++ "_agent") c))
            "completed_steps" (.vlist (cs ++ [n])))
            "current_step" (.vstr n))
          "completed_steps" = some (.vlist (cs ++ [n])) := by
        rw [assocFind_assocSet_ne _ _ _ _ (by decide)]
        exact assocFind_assocSet_self _ _ _
      have hf2 : assocFind
          (assocSet (assocSet (assocSet st (n ++ "_result")
              (.vres (n ++ "_agent") c))
            "completed_steps" (.vlist (cs ++ [n])))
            "current_step" (.vstr n))
          "failed_steps" = some (.vlist fs) := by
        rw [assocFind_assocSet_ne _ _ _ _ (by decide),
          assocFind_assocSet_ne _ _ _ _ (by decide),
          assocFind_assocSet_ne _ _ _ _ hne2]
        exact hf
      have hslot : assocFind
          (assocSet (assocSet (assocSet st (n ++ "_result")
              (.vres (n ++ "_agent") c))
            "completed_steps" (.vlist (cs ++ [n])))
            "current_step" (.vstr n))
          (n ++ "_result") = some (.vres (n ++ "_agent") c) := by
        rw [assocFind_assocSet_ne _ _ _ _ (Ne.symm hne3),
          assocFind_assocSet_ne _ _ _ _ (Ne.symm hne1)]
        exact assocFind_assocSet_self _ _ _
      have hInv2 : resultInv
          (assocSet (assocSet (assocSet st (n ++ "_result")
              (.vres (n ++ "_agent") c))
            "completed_steps" (.vlist (cs ++ [n])))
            "current_step" (.vstr n)) :=
        resultInv_assocSet
          (resultInv_assocSet
            (resultInv_assocSet hInv (fun _ => .inr ⟨_, _, rfl⟩))
            (fun hk => absurd hk (by decide)))
          (fun hk => absurd hk (by decide))
      obtain ⟨st2, hrun, h1, h2, hfr, hsl, hI⟩ :=
        ih hnd.2 _ (trace ++ [n]) (cs ++ [n]) fs hc2 hf2 hInv2
      refine ⟨st2, ?_, ?_, ?_, ?_, ?_, hI⟩
      · simp only [runNodes, specNode_succeeds beh n c st cs hb hc, wupdate3]
        rw [hrun]
        simp
      · rw [h1]
        simp [List.filter_cons, hb, StageAct.isSucc]
      · rw [h2]
        simp [List.filter_cons, hb, StageAct.isSucc]
      · intro k hk1 hk2 hk3 hk4
        rw [hfr k hk1 hk2 hk3 (fun n2 hn2 => hk4 n2 (List.mem_cons_of_mem _ hn2)),
          assocFind_assocSet_ne _ _ _ _ (Ne.symm hk3),
          assocFind_assocSet_ne _ _ _ _ (Ne.symm hk1)]
        exact assocFind_assocSet_ne _ _ _ _
          (fun hh => (hk4 n (List.mem_cons_self _ _)) hh.symm)
      · intro n0 c0 hn0 hbc
        rcases List.mem_cons.mp hn0 with rfl | hn0r
        · rw [hb] at hbc
          injection hbc with hceq
          subst hceq
          rw [hfr (n0 ++ "_result") hne1 hne2 hne3
            (fun n2 hn2 hh => hnd.1 (result_key_inj hh ▸ hn2))]
          exact hslot
        · exact hsl n0 c0 hn0r hbc

/-! ## Finalization lemmas -/

theorem failDict_keys (e : String) :
    ∀ kv ∈ failDict e,
      kv.1 = "plan_status" ∨ kv.1 = "error_message" ∨ kv.1 = "current_step" := by
  intro kv hm
  simp only [failDict, List.mem_cons, List.not_mem_nil, or_false] at hm
  rcases hm with rfl | rfl | rfl <;> simp

theorem successDict_keys (fp : String) (a b : Nat) :
    ∀ kv ∈ successDict fp a b,
      kv.1 = "final_plan" ∨ kv.1 = "plan_status" ∨ kv.1 = "end_time" ∨
      kv.1 = "total_execution_time" ∨ kv.1 = "current_step" := by
  intro kv hm
  simp only [successDict, List.mem_cons, List.not_mem_nil, or_false] at hm
  rcases hm with rfl | rfl | rfl | rfl | rfl <;> simp

/-- `_finalize_plan` always returns one of its two dict shapes. -/
theorem finalizePlan_shape (llm : String → Except String String) (tEnd : Nat)
    (st : WState) :
    (∃ e, finalizePlan llm tEnd st = failDict e) ∨
    (∃ fp t0, finalizePlan llm tEnd st = successDict fp tEnd t0) := by
  simp only [finalizePlan]
  repeat' split
  all_goals first
    | exact .inl ⟨_, rfl⟩
    | exact .inr ⟨_, _, rfl⟩

/-- Merging the finalization dict into the state does not touch the step
bookkeeping keys nor any `*_result` key. -/
theorem finalize_frame (llm : String → Except String String) (tEnd : Nat)
    (st : WState) (k : String)
    (hk : k = "completed_steps" ∨ k = "failed_steps" ∨
      ∃ n : String, k = n ++ "_result") :
    assocFind (wupdate st (finalizePlan llm tEnd st)) k = assocFind st k := by
  apply assocFind_wupdate_of_ne
  intro kv hm
  rcases finalizePlan_shape llm tEnd st with ⟨e, hs⟩ | ⟨fp, t0, hs⟩
  · rw [hs] at hm
    rcases failDict_keys e kv hm with h | h | h <;>
      rcases hk with rfl | rfl | ⟨n, rfl⟩ <;> rw [h] <;>
      first
        | decide
        | exact fun hh => append_result_ne n _ (by decide) hh.symm
  · rw [hs] at hm
    rcases successDict_keys fp tEnd t0 kv hm with h | h | h | h | h <;>
      rcases hk with rfl | rfl | ⟨n, rfl⟩ <;> rw [h] <;>
      first
        | decide
        | exact fun hh => append_result_ne n _ (by decide) hh.symm

theorem successDict_lookup (st : WState) (fp : String) (a b : Nat) :
    assocFind (wupdate st (successDict fp a b)) "plan_status" =
      some (.vstr "completed") ∧
    assocFind (wupdate st (successDict fp a b)) "final_plan" =
      some (.vstr fp) := by
  constructor
  · show assocFind
      (assocSet (assocSet (assocSet (assocSet (assocSet st
        "final_plan" (.vstr fp)) "plan_status" (.vstr "completed"))
        "end_time" (.vtime a)) "total_execution_time" (.vnum (a - b)))
        "current_step" (.vstr "计划完成")) "plan_status" = some (.vstr "completed")
    rw [assocFind_assocSet_ne _ _ _ _ (by decide),
      assocFind_assocSet_ne _ _ _ _ (by decide),
      assocFind_assocSet_ne _ _ _ _ (by decide)]
    exact assocFind_assocSet_self _ _ _
  · show assocFind
      (assocSet (assocSet (assocSet (assocSet (assocSet st
        "final_plan" (.vstr fp)) "plan_status" (.vstr "completed"))
        "end_time" (.vtime a)) "total_execution_time" (.vnum (a - b)))
        "current_step" (.vstr "计划完成")) "final_plan" = some (.vstr fp)
    rw [assocFind_assocSet_ne _ _ _ _ (by decide),
      assocFind_assocSet_ne _ _ _ _ (by decide),
      assocFind_assocSet_ne _ _ _ _ (by decide),
      assocFind_assocSet_ne _ _ _ _ (by decide)]
    exact assocFind_assocSet_self _ _ _

theorem failDict_lookup (st : WState) (e : String) :
    assocFind (wupdate st (failDict e)) "plan_status" =
      some (.vstr "failed") ∧
    assocFind (wupdate st (failDict e)) "error_message" =
      some (.vstr e) := by
  constructor
  · show assocFind
      (assocSet (assocSet (assocSet st "plan_status" (.vstr "failed"))
        "error_message" (.vstr e)) "current_step" (.vstr "计划失败"))
      "plan_status" = some (.vstr "failed")
    rw [assocFind_assocSet_ne _ _ _ _ (by decide),
      assocFind_assocSet_ne _ _ _ _ (by decide)]
    exact assocFind_assocSet_self _ _ _
  · show assocFind
      (assocSet (assocSet (assocSet st "plan_status" (.vstr "failed"))
        "error_message" (.vstr e)) "current_step" (.vstr "计划失败"))
      "error_message" = some (.vstr e)
    rw [assocFind_assocSet_ne _ _ _ _ (by decide)]
    exact assocFind_assocSet_self _ _ _

/-- On an invariant-satisfying state holding a well-typed travel request
and start time, `_finalize_plan` is decided by the text-completion call:
success yields the completion dict, failure the failed dict. -/
theorem finalizePlan_of_inv (llm : String → Except String String)
    (tEnd : Nat) (st : WState) (req : TravelRequestV) (t0 : Nat)
    (htr : assocFind st "travel_request" = some (.vreq req))
    (hst : assocFind st "start_time" = some (.vtime t0))
    (hInv : resultInv st) :
    (∀ text, (∀ p2, llm p2 = .ok text) →
      finalizePlan llm tEnd st = successDict text tEnd t0) ∧
    (∀ e, (∀ p2, llm p2 = .error e) →
      finalizePlan llm tEnd st = failDict e) := by
  obtain ⟨cs, hcs⟩ := contentsOf_collect st hInv
  constructor
  · intro text hllm
    unfold finalizePlan
    simp only [htr, hcs, hllm, hst]
  · intro e hllm
    unfold finalizePlan
    simp only [htr, hcs, hllm]

/-! ## C6 — pipeline partial-failure tolerance -/

/-- C6: in a run with spec-modelled nodes where the `stage` node raises,
the whole declared stage list is still traversed (the trace equals
`node_order`), the raising stage's name is recorded in `failed_steps`
(which lists exactly the failing stages, in order), and the terminal
`plan_status` is decided by finalization alone: if the text-completion
capability succeeds the run ends `"completed"` with the produced plan in
`final_plan`, and only if finalization's completion call raises does the
run end `"failed"`. -/
theorem pipeline_partial_failure (beh : String → StageAct)
    (llm : String → Except String String) (req : TravelRequestV)
    (tp : String) (t0 t1 : Nat) (stage m : String)
    (hstage : beh stage = .fails m) (hmem : stage ∈ nodeOrder) :
    (wfRun (specNode beh) llm req tp t0 t1).2 = nodeOrder ∧
    assocFind (wfRun (specNode beh) llm req tp t0 t1).1 "failed_steps" =
      some (.vlist (nodeOrder.filter (fun n => !(beh n).isSucc))) ∧
    stage ∈ nodeOrder.filter (fun n => !(beh n).isSucc) ∧
    (∀ text, (∀ p2, llm p2 = .ok text) →
      assocFind (wfRun (specNode beh) llm req tp t0 t1).1 "plan_status" =
        some (.vstr "completed") ∧
      assocFind (wfRun (specNode beh) llm req tp t0 t1).1 "final_plan" =
        some (.vstr text)) ∧
    (∀ e, (∀ p2, llm p2 = .error e) →
      assocFind (wfRun (specNode beh) llm req tp t0 t1).1 "plan_status" =
        some (.vstr "failed") ∧
      assocFind (wfRun (specNode beh) llm req tp t0 t1).1 "error_message" =
        some (.vstr e)) := by
  obtain ⟨st2, hrun, h1, h2, hfr, hsl, hI⟩ :=
    runNodes_spec beh nodeOrder (by decide) (initState req tp t0) [] [] []
      rfl rfl (initState_resultInv req tp t0)
  have hwf : wfRun (specNode beh) llm req tp t0 t1 =
      (wupdate st2 (finalizePlan llm t1 st2), nodeOrder) := by
    unfold wfRun
    rw [hrun]
    rfl
  have htr : assocFind st2 "travel_request" = some (.vreq req) := by
    rw [hfr "travel_request" (by decide) (by decide) (by decide)
      (fun n _ => Ne.symm (append_result_ne n _ (by decide)))]
    rfl
  have hst : assocFind st2 "start_time" = some (.vtime t0) := by
    rw [hfr "start_time" (by decide) (by decide) (by decide)
      (fun n _ => Ne.symm (append_result_ne n _ (by decide)))]
    rfl
  have hfin := finalizePlan_of_inv llm t1 st2 req t0 htr hst hI
  refine ⟨by rw [hwf], ?_, ?_, ?_, ?_⟩
  · simp only [hwf]
    rw [finalize_frame llm t1 st2 _ (.inr (.inl rfl))]
    exact h2
  · simp [List.mem_filter, hmem, hstage, StageAct.isSucc]
  · intro text hllm
    simp only [hwf]
    rw [hfin.1 text hllm]
    exact successDict_lookup st2 text t1 t0
  · intro e hllm
    simp only [hwf]
    rw [hfin.2 e hllm]
    exact failDict_lookup st2 e

/-- C6 witness: only the `"flight"` stage raises, the completion call
succeeds, and the run ends `"completed"` with the flight stage recorded as
failed. -/
theorem pipeline_partial_failure_witness :
    "flight" ∈ nodeOrder.filter (fun n => !(behW n).isSucc) ∧
    assocFind (wfRun (specNode behW) llmOk reqW "plan1" 0 9).1 "plan_status" =
      some (.vstr "completed") ∧
    assocFind (wfRun (specNode behW) llmOk reqW "plan1" 0 9).1 "final_plan" =
      some (.vstr "整合计划") := by
  have h := pipeline_partial_failure behW llmOk reqW "plan1" 0 9 "flight" "boom"
    (by decide) (by decide)
  exact ⟨h.2.2.1, (h.2.2.2.1 "整合计划" (fun p2 => rfl)).1,
    (h.2.2.2.1 "整合计划" (fun p2 => rfl)).2⟩

/-! ## C7 — stage ordering and bookkeeping -/

/-- C7: a run with spec-modelled nodes invokes the stages of the declared
list exactly in order (the trace of entered stages equals `node_order`;
the loop is sequential, each stage entered only after the previous one
returned or had its exception captured), merges each successful stage's
returned pairs into the state (its result lands under its own `_result`
key), and ends with `completed_steps` listing exactly the successful
stages and `failed_steps` exactly the raising stages, each in order. -/
theorem pipeline_order_and_bookkeeping (beh : String → StageAct)
    (llm : String → Except String String) (req : TravelRequestV)
    (tp : String) (t0 t1 : Nat) :
    (wfRun (specNode beh) llm req tp t0 t1).2 = nodeOrder ∧
    assocFind (wfRun (specNode beh) llm req tp t0 t1).1 "completed_steps" =
      some (.vlist (nodeOrder.filter (fun n => (beh n).isSucc))) ∧
    assocFind (wfRun (specNode beh) llm req tp t0 t1).1 "failed_steps" =
      some (.vlist (nodeOrder.filter (fun n => !(beh n).isSucc))) ∧
    (∀ n c, n ∈ nodeOrder → beh n = .succeeds c →
      assocFind (wfRun (specNode beh) llm req tp t0 t1).1 (n ++ "_result") =
        some (.vres (n ++ "_agent") c)) := by
  obtain ⟨st2, hrun, h1, h2, hfr, hsl, hI⟩ :=
    runNodes_spec beh nodeOrder (by decide) (initState req tp t0) [] [] []
      rfl rfl (initState_resultInv req tp t0)
  have hwf : wfRun (specNode beh) llm req tp t0 t1 =
      (wupdate st2 (finalizePlan llm t1 st2), nodeOrder) := by
    unfold wfRun
    rw [hrun]
    rfl
  refine ⟨by rw [hwf], ?_, ?_, ?_⟩
  · simp only [hwf]
    rw [finalize_frame llm t1 st2 _ (.inl rfl)]
    exact h1
  · simp only [hwf]
    rw [finalize_frame llm t1 st2 _ (.inr (.inl rfl))]
    exact h2
  · intro n c hn hbc
    simp only [hwf]
    rw [finalize_frame llm t1 st2 _ (.inr (.inr ⟨n, rfl⟩))]
    exact hsl n c hn hbc

/-- C7 witness: with only `"flight"` raising, the trace equals the
declared order, bookkeeping lists are as declared, and the destination
stage's merged result is in the state. -/
theorem pipeline_order_and_bookkeeping_witness :
    (wfRun (specNode behW) llmOk reqW "plan1" 0 9).2 = nodeOrder ∧
    assocFind (wfRun (specNode behW) llmOk reqW "plan1" 0 9).1
        ("destination" ++ "_result") =
      some (.vres ("destination" ++ "_agent") "result for destination") := by
  have h := pipeline_order_and_bookkeeping behW llmOk reqW "plan1" 0 9
  exact ⟨h.1, h.2.2.2 "destination" "result for destination" (by decide) rfl⟩

end TravelAgent
